import Mathlib

/-!
# The server-list reply collector of natscli (server_list_command.go)

A shallow embedding of `SrvLsCmd.list`:

* the subscription callback, which runs under a mutex, becomes a pure step
  function `callback` on an explicit `State` holding every variable the closure
  captures (`seen`, `results`, `clusters`, `servers`, `connections`, `memory`,
  `slow`, `subs`); because of the mutex the concurrent deliveries are a
  sequence, and `collect` folds the callback over that sequence;
* the second component of a step tells whether that delivery called `cancel()`;
* what `list` does once `sub.Drain()` has returned is `finish`.

Go's `int`, `int64` are 64-bit two's-complement (`wrapInt64`), `uint32` is
arithmetic modulo 2^32.  The compiled regular expression is a parameter
`filter : String → Bool` (its `MatchString`), the value of `time.Since(start)`
read by a delivery is part of the delivery, and `Start` is the value of
`Start.UnixNano()`.
-/

namespace NatsCli

/-! ## Machine integers -/

/-- Two's-complement reduction of an integer to the range of Go's 64-bit
`int` and `int64`. -/
def wrapInt64 (x : Int) : Int :=
  (x + 9223372036854775808) % 18446744073709551616 - 9223372036854775808

/-- Reduction of a natural number to Go's `uint32`. -/
def wrapUint32 (x : Nat) : Nat := x % 4294967296

/-- The value fits Go's 64-bit signed integers. -/
def fitsInt64 (x : Int) : Prop := -9223372036854775808 ≤ x ∧ x < 9223372036854775808

instance fitsInt64Decidable (x : Int) : Decidable (fitsInt64 x) := by
  unfold fitsInt64; infer_instance

/-! ## Data model (the fields of the nats-server types that `list` reads) -/

/-- Mirror of `server.GatewayStat`: only `NumInbound` is read. -/
structure GatewayStat where
  Name : String
  NumInbound : Int

/-- Mirror of `server.RouteStat`: only the number of routes is read. -/
structure RouteStat where
  ID : Nat

/-- Mirror of `server.ServerInfo`. -/
structure ServerInfo where
  Name : String
  Host : String
  Cluster : String
  Version : String

/-- Mirror of `server.ServerStats`; `Start` holds `Start.UnixNano()`. -/
structure ServerStats where
  Start : Int
  Mem : Int
  CPU : Float
  Connections : Int
  NumSubs : Nat
  SlowConsumers : Int
  Routes : List RouteStat
  Gateways : List GatewayStat

/-- Mirror of `server.ServerStatsMsg`. -/
structure ServerStatsMsg where
  Server : ServerInfo
  Stats : ServerStats

/-- The command and its flags. -/
structure SrvLsCmd where
  expect : Nat
  json : Bool
  filter : String
  sort : String
  reverse : Bool

/-- One row of the cluster overview. -/
structure srvListCluster where
  name : String
  nodes : List String
  gwOut : Int
  gwIn : Int
  conns : Int

/-- The local type `result` of `list`: the reply and its round-trip time. -/
structure result where
  ssm : ServerStatsMsg
  rtt : Int

/-- One invocation of the subscription callback: the decoded reply and the
value `time.Since(start)` has when the callback reads it. -/
structure Delivery where
  ssm : ServerStatsMsg
  since : Int

/-! ## The `clusters` map -/

/-- Lookup `clusters[k]`. -/
def mapGet : List (String × srvListCluster) → String → Option srvListCluster
  | [], _ => none
  | (k1, v) :: rest, k => if k1 = k then some v else mapGet rest k

/-- Assignment `clusters[k] = v`. -/
def mapSet : List (String × srvListCluster) → String → srvListCluster →
    List (String × srvListCluster)
  | [], k, v => [(k, v)]
  | (k1, v1) :: rest, k, v =>
    if k1 = k then (k, v) :: rest else (k1, v1) :: mapSet rest k v

/-! ## The subscription callback -/

/-- The variables captured by the callback. -/
structure State where
  seen : Nat
  results : List result
  clusters : List (String × srvListCluster)
  servers : Int
  connections : Int
  memory : Int
  slow : Int
  subs : Nat

/-- The values of the captured variables when the subscription is made. -/
def State.init : State :=
  { seen := 0, results := [], clusters := [], servers := 0, connections := 0,
    memory := 0, slow := 0, subs := 0 }

/-- The loop `for _, g := range ssm.Stats.Gateways` adding to `gwIn`. -/
def addInbound (gwIn : Int) (gws : List GatewayStat) : Int :=
  gws.foldl (fun acc g => wrapInt64 (acc + g.NumInbound)) gwIn

/-- The block guarded by `cluster != ""`. -/
def updateClusters (clusters : List (String × srvListCluster)) (ssm : ServerStatsMsg) :
    List (String × srvListCluster) :=
  let cluster := ssm.Server.Cluster
  if cluster ≠ "" then
    let clusters :=
      match mapGet clusters cluster with
      | some _ => clusters
      | none => mapSet clusters cluster
          { name := cluster, nodes := [], gwOut := 0, gwIn := 0, conns := 0 }
    match mapGet clusters cluster with
    | none => clusters
    | some e =>
      mapSet clusters cluster
        { name := e.name
          nodes := e.nodes ++ [ssm.Server.Name]
          gwOut := wrapInt64 (e.gwOut + (ssm.Stats.Gateways.length : Int))
          gwIn := addInbound e.gwIn ssm.Stats.Gateways
          conns := wrapInt64 (e.conns + ssm.Stats.Connections) }
  else clusters

/-- The subscription callback.  The Boolean tells whether this delivery
reached the statement `cancel()`. -/
def callback (c : SrvLsCmd) (filter : String → Bool) (st : State) (d : Delivery) :
    State × Bool :=
  let last := wrapUint32 (st.seen + 1)
  if !filter d.ssm.Server.Name then
    ({ st with seen := last }, false)
  else
    ({ seen := last
       results := st.results ++ [{ ssm := d.ssm, rtt := d.since }]
       clusters := updateClusters st.clusters d.ssm
       servers := wrapInt64 (st.servers + 1)
       connections := wrapInt64 (st.connections + d.ssm.Stats.Connections)
       memory := wrapInt64 (st.memory + d.ssm.Stats.Mem)
       slow := wrapInt64 (st.slow + d.ssm.Stats.SlowConsumers)
       subs := wrapUint32 (st.subs + d.ssm.Stats.NumSubs) },
     decide (last = c.expect))

/-- The state after the callback has handled the deliveries in turn. -/
def collect (c : SrvLsCmd) (filter : String → Bool) (ds : List Delivery) : State :=
  ds.foldl (fun st d => (callback c filter st d).1) State.init

/-- For each delivery in turn, whether it called `cancel()`. -/
def cancels (c : SrvLsCmd) (filter : String → Bool) :
    State → List Delivery → List Bool
  | _, [] => []
  | st, d :: ds => (callback c filter st d).2 :: cancels c filter (callback c filter st d).1 ds

/-! ## Sorting -/

/-- The closure `rev`. -/
def rev (c : SrvLsCmd) (v : Bool) : Bool :=
  if c.reverse then !v else v

/-- The comparator handed to `sort.Slice`, on the two elements compared. -/
def less (c : SrvLsCmd) (ri rj : result) : Bool :=
  let stati := ri.ssm.Stats
  let statj := rj.ssm.Stats
  if c.sort = "conns" ∨ c.sort = "conn" then
    rev c (decide (stati.Connections < statj.Connections))
  else if c.sort = "subs" ∨ c.sort = "sub" then
    rev c (decide (stati.NumSubs < statj.NumSubs))
  else if c.sort = "routes" ∨ c.sort = "route" then
    rev c (decide (stati.Routes.length < statj.Routes.length))
  else if c.sort = "gws" ∨ c.sort = "gw" then
    rev c (decide (stati.Gateways.length < statj.Gateways.length))
  else if c.sort = "mem" then
    rev c (decide (stati.Mem < statj.Mem))
  else if c.sort = "cpu" then
    rev c (decide (stati.CPU < statj.CPU))
  else if c.sort = "slow" then
    rev c (decide (stati.SlowConsumers < statj.SlowConsumers))
  else if c.sort = "uptime" then
    rev c (decide (stati.Start > statj.Start))
  else
    rev c (decide (ri.rtt < rj.rtt))

/-- The inner loop of the library routine `insertionSort_func`: the element
`x` stands right after a run of elements, given here from right to left, and
is swapped leftwards as long as `less x y` holds for its left neighbour `y`. -/
def insertBack {α : Type} (lt : α → α → Bool) (x : α) : List α → List α
  | [] => [x]
  | y :: ys => if lt x y then y :: insertBack lt x ys else x :: y :: ys

/-- The library routine `insertionSort_func` of package sort:
`for i := a+1; i < b; i++ { for j := i; j > a && less(j, j-1); j-- { swap(j, j-1) } }`.
The accumulator is the part already handled, from right to left. -/
def insertionSort {α : Type} (lt : α → α → Bool) (data : List α) : List α :=
  (data.foldl (fun run x => insertBack lt x run) []).reverse

/-- The call `sort.Slice(results, less)`.  The library is not part of this
repository; the model is the insertion sort which `sort.Slice` runs on a short
slice (on at most 12 elements since Go 1.19, on at most 6 elements in every
release; longer slices go through the library's quicksort). -/
def sortSlice (c : SrvLsCmd) (results : List result) : List result :=
  insertionSort (less c) results

/-! ## After the subscription has drained -/

/-- What the table path prints. -/
structure Table where
  rows : List result
  clusterCount : Nat
  servers : Int
  connections : Int
  subs : Nat
  memory : Int
  slow : Int
  missing : Option Nat
  showClusters : Bool

/-- What a successful run hands to the terminal. -/
inductive Output where
  | json (results : List result)
  | table (t : Table)

/-- The error text of the empty-result check. -/
def noResults : String :=
  "no results received, ensure the account used has system privileges and appropriate permissions"

/-- The statement printing `Missing %d server(s)`: the number printed, if the
statement runs.  The subtraction is a `uint32` subtraction. -/
def missing (c : SrvLsCmd) (seen : Nat) : Option Nat :=
  if c.expect ≠ 0 ∧ c.expect ≠ seen then
    some ((c.expect + 4294967296 - seen) % 4294967296)
  else none

/-- The part of `list` after `sub.Drain()`. -/
def finish (c : SrvLsCmd) (st : State) : Except String Output :=
  if st.results.length = 0 then
    .error noResults
  else if c.json then
    .ok (.json st.results)
  else
    .ok (.table
      { rows := sortSlice c st.results
        clusterCount := st.clusters.length
        servers := st.servers
        connections := st.connections
        subs := st.subs
        memory := st.memory
        slow := st.slow
        missing := missing c st.seen
        showClusters := decide (st.clusters.length > 0) })

/-- The method `list` from the moment the subscription exists: `ds` are the
deliveries the callback handles before `sub.Drain()` returns. -/
def list (c : SrvLsCmd) (filter : String → Bool) (ds : List Delivery) :
    Except String Output :=
  finish c (collect c filter ds)

/-! ## Specification-side functions -/

/-- The deliveries whose server name the filter accepts, in arrival order. -/
def matching (filter : String → Bool) (ds : List Delivery) : List Delivery :=
  ds.filter (fun d => filter d.ssm.Server.Name)

/-- The entry appended to `results` for a delivery. -/
def Delivery.toResult (d : Delivery) : result := { ssm := d.ssm, rtt := d.since }

/-- The integer which the comparator of `list` compares under the sort key
`s`, for the keys that compare integers with `<`; under `uptime` the start
times are compared with `>`, which is `<` on the negated start time.  The key
`cpu` compares floats and has no integer key (0 here). -/
def sortKey (s : String) (r : result) : Int :=
  if s = "conns" ∨ s = "conn" then r.ssm.Stats.Connections
  else if s = "subs" ∨ s = "sub" then (r.ssm.Stats.NumSubs : Int)
  else if s = "routes" ∨ s = "route" then (r.ssm.Stats.Routes.length : Int)
  else if s = "gws" ∨ s = "gw" then (r.ssm.Stats.Gateways.length : Int)
  else if s = "mem" then r.ssm.Stats.Mem
  else if s = "cpu" then 0
  else if s = "slow" then r.ssm.Stats.SlowConsumers
  else if s = "uptime" then - r.ssm.Stats.Start
  else r.rtt

/-- A reply with the given server name, cluster, connection count and start
time, every other statistic zero or empty. -/
def reply (name cluster : String) (conns start : Int) : ServerStatsMsg :=
  { Server := { Name := name, Host := "", Cluster := cluster, Version := "" }
    Stats := { Start := start, Mem := 0, CPU := 0, Connections := conns, NumSubs := 0,
               SlowConsumers := 0, Routes := [], Gateways := [] } }

/-- A table-output command with no filter pattern. -/
def tableCmd (expect : Nat) (key : String) (reverse : Bool) : SrvLsCmd :=
  { expect := expect, json := false, filter := "", sort := key, reverse := reverse }

/-- The filter that accepts exactly the server name `a`. -/
def onlyA (name : String) : Bool := name == "a"

/-- The filter of an empty pattern, which accepts every name. -/
def acceptAll (_ : String) : Bool := true

/-- Three deliveries named `a`, `b`, `a`. -/
def mixedReplies : List Delivery :=
  [⟨reply "a" "" 1 0, 10⟩, ⟨reply "b" "" 1 0, 20⟩, ⟨reply "a" "" 1 0, 30⟩]

/-- Five deliveries from five servers without a cluster. -/
def fiveReplies : List Delivery :=
  [⟨reply "n1" "" 1 0, 10⟩, ⟨reply "n2" "" 1 0, 20⟩, ⟨reply "n3" "" 1 0, 30⟩,
   ⟨reply "n4" "" 1 0, 40⟩, ⟨reply "n5" "" 1 0, 50⟩]

/-- Three deliveries with 5, 10 and 2 connections, the first two in cluster `c1`. -/
def threeReplies : List Delivery :=
  [⟨reply "n1" "c1" 5 0, 10⟩, ⟨reply "n2" "c1" 10 0, 20⟩, ⟨reply "n3" "" 2 0, 30⟩]

/-- A result started at time 1 (the longer-running server). -/
def earlier : result := ⟨reply "earlier" "" 7 1, 10⟩

/-- A result started at time 2. -/
def later : result := ⟨reply "later" "" 7 2, 20⟩

/-- The name column of a list of results. -/
def names (rs : List result) : List String := rs.map (fun r => r.ssm.Server.Name)

/-! ## Machine integers and the closed form of the state -/

theorem wrapInt64_of_fits {x : Int} (h : fitsInt64 x) : wrapInt64 x = x := by
  unfold fitsInt64 at h; unfold wrapInt64; omega

theorem wrapInt64_add_left (a b : Int) : wrapInt64 (wrapInt64 a + b) = wrapInt64 (a + b) := by
  unfold wrapInt64; omega

theorem wrapUint32_add_left (a b : Nat) : wrapUint32 (wrapUint32 a + b) = wrapUint32 (a + b) := by
  unfold wrapUint32; omega

theorem wrapUint32_of_lt {x : Nat} (h : x < 4294967296) : wrapUint32 x = x := by
  unfold wrapUint32; omega

theorem collect_snoc (c : SrvLsCmd) (filter : String → Bool) (ds : List Delivery) (d : Delivery) :
    collect c filter (ds ++ [d]) = (callback c filter (collect c filter ds) d).1 := by
  simp [collect, List.foldl_append]

theorem matching_snoc (filter : String → Bool) (ds : List Delivery) (d : Delivery) :
    matching filter (ds ++ [d]) =
      if filter d.ssm.Server.Name then matching filter ds ++ [d] else matching filter ds := by
  unfold matching
  by_cases h : filter d.ssm.Server.Name = true <;> simp [List.filter_append, h]

/-- The scalar part of the state in closed form. -/
theorem collect_scalars (c : SrvLsCmd) (filter : String → Bool) (ds : List Delivery) :
    (collect c filter ds).seen = wrapUint32 ds.length ∧
    (collect c filter ds).results = (matching filter ds).map Delivery.toResult ∧
    (collect c filter ds).servers = wrapInt64 ((matching filter ds).length : Int) ∧
    (collect c filter ds).connections =
      wrapInt64 ((matching filter ds).map (fun d => d.ssm.Stats.Connections)).sum ∧
    (collect c filter ds).memory =
      wrapInt64 ((matching filter ds).map (fun d => d.ssm.Stats.Mem)).sum ∧
    (collect c filter ds).slow =
      wrapInt64 ((matching filter ds).map (fun d => d.ssm.Stats.SlowConsumers)).sum ∧
    (collect c filter ds).subs =
      wrapUint32 ((matching filter ds).map (fun d => d.ssm.Stats.NumSubs)).sum := by
  induction ds using List.reverseRecOn with
  | nil => simp [collect, State.init, matching, wrapUint32, wrapInt64]
  | append_singleton ds d ih =>
    obtain ⟨h1, h2, h3, h4, h5, h6, h7⟩ := ih
    rw [collect_snoc, matching_snoc]
    by_cases hf : filter d.ssm.Server.Name = true
    · simp only [callback, hf, Bool.not_true, Bool.false_eq_true, if_false, if_true,
        h1, h2, h3, h4, h5, h6, h7, List.map_append, List.map_cons, List.map_nil,
        List.sum_append, List.sum_cons, List.sum_nil, List.length_append, List.length_cons,
        List.length_nil, wrapInt64_add_left, wrapUint32_add_left, add_zero, zero_add]
      refine ⟨trivial, rfl, ?_, trivial, trivial, trivial, trivial⟩
      push_cast; rfl
    · simp only [Bool.not_eq_true] at hf
      simp only [callback, hf, Bool.not_false, if_true, h1, h2, h3, h4, h5, h6, h7,
        List.length_append, List.length_cons, List.length_nil, wrapUint32_add_left,
        Bool.false_eq_true, if_false, zero_add]
      exact ⟨trivial, trivial, trivial, trivial, trivial, trivial, trivial⟩

/-! ## The clusters map -/

theorem less_eq_sortKey (c : SrvLsCmd) (hcpu : c.sort ≠ "cpu") (a b : result) :
    less c a b = rev c (decide (sortKey c.sort a < sortKey c.sort b)) := by
  unfold less sortKey
  split_ifs <;> simp_all

theorem insertBack_perm {α : Type} (lt : α → α → Bool) (x : α) (l : List α) :
    (insertBack lt x l).Perm (x :: l) := by
  induction l with
  | nil => simp [insertBack]
  | cons y ys ih =>
    unfold insertBack
    split_ifs
    · exact (List.Perm.cons y ih).trans (List.Perm.swap x y ys)
    · exact List.Perm.refl _

theorem foldl_insertBack_perm {α : Type} (lt : α → α → Bool) (l run : List α) :
    (l.foldl (fun run x => insertBack lt x run) run).Perm (l ++ run) := by
  induction l generalizing run with
  | nil => simp
  | cons x xs ih =>
    simp only [List.foldl_cons]
    refine (ih _).trans ?_
    refine (List.Perm.append_left xs (insertBack_perm lt x run)).trans ?_
    simp

theorem insertionSort_perm {α : Type} (lt : α → α → Bool) (l : List α) :
    (insertionSort lt l).Perm l := by
  unfold insertionSort
  refine (List.reverse_perm _).trans ?_
  simpa using foldl_insertBack_perm lt l []

/-- One insertion keeps a run ordered, for any order `le` which the comparator
respects both when it answers yes and when it answers no. -/
theorem insertBack_pairwise {α : Type} (lt : α → α → Bool) (le : α → α → Prop)
    (hyes : ∀ x y, lt x y = true → le x y) (hno : ∀ x y, lt x y = false → le y x)
    (htrans : ∀ x y z, le x y → le y z → le x z) (x : α) (l : List α)
    (h : l.Pairwise (fun a b => le b a)) :
    (insertBack lt x l).Pairwise (fun a b => le b a) := by
  induction l with
  | nil => simp [insertBack]
  | cons y ys ih =>
    rw [List.pairwise_cons] at h
    unfold insertBack
    by_cases hlt : lt x y = true
    · simp only [hlt, if_true]
      rw [List.pairwise_cons]
      refine ⟨?_, ih h.2⟩
      intro z hz
      rcases (List.mem_cons.mp ((insertBack_perm lt x ys).mem_iff.mp hz)) with hzx | hzy
      · subst hzx; exact hyes _ _ hlt
      · exact h.1 z hzy
    · have hlt2 : lt x y = false := by simpa using hlt
      simp only [hlt2, Bool.false_eq_true, if_false]
      rw [List.pairwise_cons]
      refine ⟨?_, List.pairwise_cons.mpr h⟩
      intro z hz
      rcases List.mem_cons.mp hz with hzy | hzys
      · subst hzy; exact hno _ _ hlt2
      · exact htrans _ _ _ (h.1 z hzys) (hno _ _ hlt2)

theorem foldl_insertBack_pairwise {α : Type} (lt : α → α → Bool) (le : α → α → Prop)
    (hyes : ∀ x y, lt x y = true → le x y) (hno : ∀ x y, lt x y = false → le y x)
    (htrans : ∀ x y z, le x y → le y z → le x z) (l run : List α)
    (h : run.Pairwise (fun a b => le b a)) :
    (l.foldl (fun run x => insertBack lt x run) run).Pairwise (fun a b => le b a) := by
  induction l generalizing run with
  | nil => simpa using h
  | cons x xs ih =>
    simp only [List.foldl_cons]
    exact ih _ (insertBack_pairwise lt le hyes hno htrans x run h)

theorem insertionSort_pairwise {α : Type} (lt : α → α → Bool) (le : α → α → Prop)
    (hyes : ∀ x y, lt x y = true → le x y) (hno : ∀ x y, lt x y = false → le y x)
    (htrans : ∀ x y z, le x y → le y z → le x z) (l : List α) :
    (insertionSort lt l).Pairwise le := by
  unfold insertionSort
  rw [List.pairwise_reverse]
  exact foldl_insertBack_pairwise lt le hyes hno htrans l [] List.Pairwise.nil

theorem matching_length_le (filter : String → Bool) (ds : List Delivery) :
    (matching filter ds).length ≤ ds.length := by
  unfold matching; exact List.length_filter_le _ _

theorem matching_perm (filter : String → Bool) {ds ds2 : List Delivery} (h : ds2.Perm ds) :
    (matching filter ds2).length = (matching filter ds).length := by
  unfold matching; exact (h.filter _).length_eq

/-- C4. From the empty state, after the callback has handled any sequence of
fewer than 2^32 replies, and after each single application on the way (every
prefix of the sequence), `seen` is the number of replies handled, `servers` is
the number of them whose name the filter accepts, `servers` is the length of
`results`, and `seen >= servers`; the two counters do not depend on the order
of the replies. -/
theorem seen_and_matched_counts (c : SrvLsCmd) (filter : String → Bool) (ds : List Delivery)
    (hn : ds.length < 4294967296) :
    (∀ k, k ≤ ds.length →
      (collect c filter (ds.take k)).seen = k ∧
      (collect c filter (ds.take k)).servers = ((matching filter (ds.take k)).length : Int) ∧
      (collect c filter (ds.take k)).servers =
        ((collect c filter (ds.take k)).results.length : Int) ∧
      (collect c filter (ds.take k)).servers ≤ ((collect c filter (ds.take k)).seen : Int)) ∧
    (∀ ds2, ds2.Perm ds →
      (collect c filter ds2).seen = (collect c filter ds).seen ∧
      (collect c filter ds2).servers = (collect c filter ds).servers) := by
  have key : ∀ l : List Delivery, l.length < 4294967296 →
      (collect c filter l).seen = l.length ∧
      (collect c filter l).servers = ((matching filter l).length : Int) ∧
      (collect c filter l).servers = ((collect c filter l).results.length : Int) ∧
      (collect c filter l).servers ≤ ((collect c filter l).seen : Int) := by
    intro l hl
    obtain ⟨h1, h2, h3, -⟩ := collect_scalars c filter l
    have hle := matching_length_le filter l
    have hfit : fitsInt64 ((matching filter l).length : Int) := by
      unfold fitsInt64; omega
    rw [h1, h2, h3, wrapUint32_of_lt hl, wrapInt64_of_fits hfit, List.length_map]
    refine ⟨rfl, rfl, rfl, ?_⟩
    exact_mod_cast hle
  refine ⟨?_, ?_⟩
  · intro k hk
    have hlen : (ds.take k).length = k := by simp [List.length_take, hk]
    have := key (ds.take k) (by omega)
    rw [hlen] at this
    exact this
  · intro ds2 hp
    obtain ⟨h1, -, h3, -⟩ := collect_scalars c filter ds2
    obtain ⟨g1, -, g3, -⟩ := collect_scalars c filter ds
    rw [h1, g1, h3, g3, hp.length_eq, matching_perm filter hp]
    exact ⟨rfl, rfl⟩

/-- Witness of C4: three replies of which the filter accepts two. -/
theorem seen_and_matched_counts_witness :
    mixedReplies.length < 4294967296 ∧
    (collect (tableCmd 2 "rtt" false) onlyA (mixedReplies.take 3)).seen = 3 ∧
    (collect (tableCmd 2 "rtt" false) onlyA (mixedReplies.take 3)).servers =
      ((matching onlyA (mixedReplies.take 3)).length : Int) :=
  ⟨by decide,
   ((seen_and_matched_counts (tableCmd 2 "rtt" false) onlyA mixedReplies (by decide)).1 3
      (by decide)).1,
   ((seen_and_matched_counts (tableCmd 2 "rtt" false) onlyA mixedReplies (by decide)).1 3
      (by decide)).2.1⟩

theorem results_eq_nil_iff (c : SrvLsCmd) (filter : String → Bool) (ds : List Delivery) :
    (collect c filter ds).results = [] ↔ ∀ d ∈ ds, filter d.ssm.Server.Name = false := by
  rw [(collect_scalars c filter ds).2.1, List.map_eq_nil_iff]
  unfold matching
  rw [List.filter_eq_nil_iff]
  constructor
  · intro h d hd; simpa using h d hd
  · intro h d hd; simp [h d hd]

/-- C5. Once collection has ended, `list` returns the error `no results
received ...` exactly when `results` is empty, which is exactly when no reply
passed the name filter, whatever `seen` and the output mode are; it returns no
other error at that stage; and when the filter accepts none of 5 replies the
run ends with that error, `seen = 5` and `servers = 0`. -/
theorem empty_result_error_iff (c : SrvLsCmd) (filter : String → Bool) (ds : List Delivery) :
    (list c filter ds = Except.error noResults ↔ (collect c filter ds).results = []) ∧
    ((collect c filter ds).results = [] ↔ ∀ d ∈ ds, filter d.ssm.Server.Name = false) ∧
    (∀ msg, list c filter ds = Except.error msg → msg = noResults) ∧
    (ds.length = 5 → (∀ d ∈ ds, filter d.ssm.Server.Name = false) →
      list c filter ds = Except.error noResults ∧
      (collect c filter ds).seen = 5 ∧ (collect c filter ds).servers = 0) := by
  have hiff : list c filter ds = Except.error noResults ↔ (collect c filter ds).results = [] := by
    unfold list finish
    by_cases h : (collect c filter ds).results.length = 0
    · simp [h, List.length_eq_zero.mp h]
    · have hne : (collect c filter ds).results ≠ [] := fun e => h (by rw [e]; rfl)
      by_cases hj : c.json = true <;> simp [h, hj, hne]
  refine ⟨hiff, results_eq_nil_iff c filter ds, ?_, ?_⟩
  · intro msg hmsg
    unfold list finish at hmsg
    by_cases h : (collect c filter ds).results.length = 0
    · simp only [h, if_true] at hmsg
      exact (Except.error.inj hmsg).symm
    · by_cases hj : c.json = true <;> simp [h, hj] at hmsg
  · intro h5 hnone
    have hres := (results_eq_nil_iff c filter ds).mpr hnone
    obtain ⟨h1, h2, h3, -⟩ := collect_scalars c filter ds
    refine ⟨hiff.mpr hres, ?_, ?_⟩
    · rw [h1, h5]; decide
    · have hm : (matching filter ds).length = 0 := by
        rw [h2] at hres
        simpa using hres
      rw [h3, hm]; decide

/-- Witness of C5: the filter that accepts only `a` meets five replies from
other servers. -/
theorem empty_result_error_iff_witness :
    fiveReplies.length = 5 ∧ (∀ d ∈ fiveReplies, onlyA d.ssm.Server.Name = false) ∧
    list (tableCmd 0 "rtt" false) onlyA fiveReplies = Except.error noResults ∧
    (collect (tableCmd 0 "rtt" false) onlyA fiveReplies).seen = 5 ∧
    (collect (tableCmd 0 "rtt" false) onlyA fiveReplies).servers = 0 :=
  ⟨by decide, by decide,
   (empty_result_error_iff (tableCmd 0 "rtt" false) onlyA fiveReplies).2.2.2 (by decide)
     (by decide)⟩

/-! ## Totals, rollups, frame, termination and the advisory -/

/-- C6. After the callback has handled any sequence of replies, `connections`,
`memory`, `slow` and `subs` are the sums of `Stats.Connections`, `Stats.Mem`,
`Stats.SlowConsumers` and `Stats.NumSubs` over exactly the replies whose
server name the filter accepts (each once, the others contributing nothing),
provided each sum fits its counter (64-bit signed, `subs` 32-bit unsigned);
`results` has one entry per accepted reply. -/
theorem running_totals (c : SrvLsCmd) (filter : String → Bool) (ds : List Delivery)
    (hconns : fitsInt64 ((matching filter ds).map (fun d => d.ssm.Stats.Connections)).sum)
    (hmem : fitsInt64 ((matching filter ds).map (fun d => d.ssm.Stats.Mem)).sum)
    (hslow : fitsInt64 ((matching filter ds).map (fun d => d.ssm.Stats.SlowConsumers)).sum)
    (hsubs : ((matching filter ds).map (fun d => d.ssm.Stats.NumSubs)).sum < 4294967296) :
    (collect c filter ds).connections =
      ((matching filter ds).map (fun d => d.ssm.Stats.Connections)).sum ∧
    (collect c filter ds).memory = ((matching filter ds).map (fun d => d.ssm.Stats.Mem)).sum ∧
    (collect c filter ds).slow =
      ((matching filter ds).map (fun d => d.ssm.Stats.SlowConsumers)).sum ∧
    (collect c filter ds).subs = ((matching filter ds).map (fun d => d.ssm.Stats.NumSubs)).sum ∧
    (collect c filter ds).results.length = (matching filter ds).length := by
  obtain ⟨-, h2, -, h4, h5, h6, h7⟩ := collect_scalars c filter ds
  rw [h2, h4, h5, h6, h7, wrapInt64_of_fits hconns, wrapInt64_of_fits hmem,
    wrapInt64_of_fits hslow, wrapUint32_of_lt hsubs, List.length_map]
  exact ⟨rfl, rfl, rfl, rfl, rfl⟩

/-- Witness of C6: three accepted replies with 5, 10 and 2 connections give a
results list of length 3 and 17 connections in total. -/
theorem running_totals_witness :
    (collect (tableCmd 3 "rtt" false) acceptAll threeReplies).connections = 17 ∧
    (collect (tableCmd 3 "rtt" false) acceptAll threeReplies).results.length = 3 := by
  have h := running_totals (tableCmd 3 "rtt" false) acceptAll threeReplies
    (by decide) (by decide) (by decide) (by decide)
  refine ⟨h.1.trans (by decide), h.2.2.2.2.trans (by decide)⟩

/-- C10. After the callback has handled any sequence of replies, `results`
(before sorting) holds exactly the replies whose server name the filter
accepts, each once, in the order of their deliveries; and a delivery whose
name the filter rejects changes `seen` and nothing else. -/
theorem arrival_order_and_frame (c : SrvLsCmd) (filter : String → Bool) :
    (∀ ds, (collect c filter ds).results = (matching filter ds).map Delivery.toResult) ∧
    (∀ st d, filter d.ssm.Server.Name = false →
      (callback c filter st d).1 = { st with seen := wrapUint32 (st.seen + 1) } ∧
      (callback c filter st d).1.results = st.results ∧
      (callback c filter st d).1.servers = st.servers ∧
      (callback c filter st d).1.connections = st.connections ∧
      (callback c filter st d).1.memory = st.memory ∧
      (callback c filter st d).1.slow = st.slow ∧
      (callback c filter st d).1.subs = st.subs ∧
      (callback c filter st d).1.clusters = st.clusters ∧
      ∀ k, mapGet (callback c filter st d).1.clusters k = mapGet st.clusters k) := by
  refine ⟨fun ds => (collect_scalars c filter ds).2.1, ?_⟩
  intro st d hf
  simp [callback, hf]

/-- Witness of C10: the rejected reply `b` after one accepted reply. -/
theorem arrival_order_and_frame_witness :
    onlyA (reply "b" "c1" 4 0).Server.Name = false ∧
    (callback (tableCmd 0 "rtt" false) onlyA
        (collect (tableCmd 0 "rtt" false) onlyA [⟨reply "a" "c1" 3 0, 5⟩])
        ⟨reply "b" "c1" 4 0, 6⟩).1.connections =
      (collect (tableCmd 0 "rtt" false) onlyA [⟨reply "a" "c1" 3 0, 5⟩]).connections :=
  ⟨by decide,
   ((arrival_order_and_frame (tableCmd 0 "rtt" false) onlyA).2
      (collect (tableCmd 0 "rtt" false) onlyA [⟨reply "a" "c1" 3 0, 5⟩])
      ⟨reply "b" "c1" 4 0, 6⟩ (by decide)).2.2.2.1⟩

/-- C1, the code at the failing input: with `expect = 2` and a filter that
accepts only `a`, the replies `a`, `b`, `a` are all handled (`seen` ends at 3,
having been 2 after the second), and no delivery calls `cancel()`: the second
delivery returns at the filter check before the comparison `last == c.expect`. -/
theorem cancel_missed_on_filtered_reply :
    (collect (tableCmd 2 "rtt" false) onlyA (mixedReplies.take 2)).seen = 2 ∧
    (collect (tableCmd 2 "rtt" false) onlyA mixedReplies).seen = 3 ∧
    cancels (tableCmd 2 "rtt" false) onlyA State.init mixedReplies = [false, false, false] ∧
    cancels (tableCmd 2 "rtt" false) acceptAll State.init mixedReplies = [false, true, false] := by
  decide

/-- C3, the code at the failing input: with `expect = 3` and five accepted
replies the table path prints `Missing 4294967294 server(s)`. -/
theorem missing_printed_when_more_seen :
    (collect (tableCmd 3 "rtt" false) acceptAll fiveReplies).seen = 5 ∧
    missing (tableCmd 3 "rtt" false) 5 = some 4294967294 ∧
    ∃ t, list (tableCmd 3 "rtt" false) acceptAll fiveReplies = Except.ok (Output.table t) ∧
      t.missing = some 4294967294 :=
  ⟨by decide, by decide, _, rfl, by decide⟩

/-! ## The sorter -/

theorem sortSlice_perm (c : SrvLsCmd) (rs : List result) : (sortSlice c rs).Perm rs :=
  insertionSort_perm (less c) rs

theorem sortSlice_ascending (c : SrvLsCmd) (rs : List result) (hcpu : c.sort ≠ "cpu")
    (hrev : c.reverse = false) :
    (sortSlice c rs).Pairwise (fun a b => sortKey c.sort a ≤ sortKey c.sort b) := by
  unfold sortSlice
  apply insertionSort_pairwise
  · intro x y h
    rw [less_eq_sortKey c hcpu] at h
    simp only [rev, hrev, Bool.false_eq_true, if_false, decide_eq_true_eq] at h
    omega
  · intro x y h
    rw [less_eq_sortKey c hcpu] at h
    simp only [rev, hrev, Bool.false_eq_true, if_false, decide_eq_false_iff_not] at h
    omega
  · intro x y z hxy hyz
    omega

/-- Counterexample to C2 as stated: under `uptime` with reverse off, the result
started at time 1 is not `less` than the one started at time 2, the converse
holds, and sorting puts the later start first. -/
theorem uptime_earlier_start_not_first :
    earlier.ssm.Stats.Start < later.ssm.Stats.Start ∧
    less (tableCmd 0 "uptime" false) earlier later = false ∧
    less (tableCmd 0 "uptime" false) later earlier = true ∧
    names (sortSlice (tableCmd 0 "uptime" false) [earlier, later]) = ["later", "earlier"] := by
  decide

/-- C2, amended. With sort key `uptime` and reverse off, `less(a, b)` holds
exactly when `a.Start` is later than `b.Start`; so of two reports with start
times T1 < T2 the one started at T2 (the shorter-running one) is placed
first, and in every sorted result the start times never increase from an
entry to a later one. -/
theorem uptime_later_start_first (c : SrvLsCmd) (hkey : c.sort = "uptime")
    (hrev : c.reverse = false) :
    (∀ a b, less c a b = true ↔ b.ssm.Stats.Start < a.ssm.Stats.Start) ∧
    (∀ a b, a.ssm.Stats.Start < b.ssm.Stats.Start →
      less c a b = false ∧ less c b a = true ∧
      sortSlice c [a, b] = [b, a] ∧ sortSlice c [b, a] = [b, a]) ∧
    (∀ rs, (sortSlice c rs).Perm rs ∧
      (sortSlice c rs).Pairwise (fun x y => y.ssm.Stats.Start ≤ x.ssm.Stats.Start)) := by
  have hless : ∀ a b, less c a b = decide (b.ssm.Stats.Start < a.ssm.Stats.Start) := by
    intro a b
    simp [less, hkey, rev, hrev]
  refine ⟨fun a b => by rw [hless]; simp, ?_, ?_⟩
  · intro a b hab
    have h1 : less c a b = false := by rw [hless]; simp; omega
    have h2 : less c b a = true := by rw [hless]; simpa using hab
    refine ⟨h1, h2, ?_, ?_⟩
    · simp [sortSlice, insertionSort, insertBack, h2]
    · simp [sortSlice, insertionSort, insertBack, h1]
  · intro rs
    refine ⟨sortSlice_perm c rs, ?_⟩
    have hcpu : c.sort ≠ "cpu" := by rw [hkey]; decide
    have h := sortSlice_ascending c rs hcpu hrev
    refine h.imp ?_
    intro x y hxy
    simp [sortKey, hkey] at hxy
    exact hxy

/-- Witness of C2 amended: the results started at times 1 and 2. -/
theorem uptime_later_start_first_witness :
    (tableCmd 0 "uptime" false).sort = "uptime" ∧ (tableCmd 0 "uptime" false).reverse = false ∧
    earlier.ssm.Stats.Start < later.ssm.Stats.Start ∧
    sortSlice (tableCmd 0 "uptime" false) [earlier, later] = [later, earlier] :=
  ⟨rfl, rfl, by decide,
   ((uptime_later_start_first (tableCmd 0 "uptime" false) rfl rfl).2.1 earlier later
      (by decide)).2.2.1⟩

end NatsCli
